import Mathlib

/-!
# Verification of the linear time-series forecasting repository

Shallow embedding of `src/linear-forecasting/main.py` (the reference entry
point) and of the forecasting-core components described by the design
document (WindowExtractor, InstanceNormalizer, ClosedFormEstimator,
ForecastModel).  Arrays are embedded as total functions `ℕ → … → ℚ`
together with explicit extents, or as nested lists where the shape of the
result is itself the property under scrutiny.  All arithmetic is over `ℚ`.
-/

namespace LinearForecasting

open Matrix

/-! ## Entry-point windowing (main.py lines 57–60)

`dataset_test.data` is a raw array of shape (time, variables), embedded as
`s : ℕ → ℕ → ℚ` (time index first) with explicit time length `T`.

`np.lib.stride_tricks.sliding_window_view(data, w, axis=0)` yields, when
`w ≤ T`, an array of shape `(T - w + 1, V, w)` whose window `i` holds
`data[i + j, v]` at position `(i, v, j)`; when `w > T` it raises
`ValueError` before returning anything. -/

/-- The list of sliding windows of width `w` over a series of length `T`:
window `i` (for `i < T - w + 1`) maps `(v, j) ↦ s (i + j) v`.  This is the
success payload of `sliding_window_view(data, w, axis=0)`. -/
def slidingWindows (T w : ℕ) (s : ℕ → ℕ → ℚ) : List (ℕ → ℕ → ℚ) :=
  (List.range (T - w + 1)).map (fun i => fun v j => s (i + j) v)

/-- `np.lib.stride_tricks.sliding_window_view(data, w, axis=0)` as used at
main.py line 58: returns the sliding windows when `w ≤ T` and raises
`ValueError` otherwise. -/
def slidingWindowView (T w : ℕ) (s : ℕ → ℕ → ℚ) :
    Except String (List (ℕ → ℕ → ℚ)) :=
  if w ≤ T then Except.ok (slidingWindows T w s)
  else Except.error "ValueError: window shape cannot be larger than input array shape"

/-- `test_instances` of main.py line 58: sliding windows of width
`context_length + horizon` over the test series. -/
def testInstances (T C H : ℕ) (s : ℕ → ℕ → ℚ) :
    Except String (List (ℕ → ℕ → ℚ)) :=
  slidingWindowView T (C + H) s

/-- `X = test_instances[:, :, :context_length]` (main.py line 59): the
context slice of one instance; indices `j < C` pass through unchanged. -/
def contextSlice (inst : ℕ → ℕ → ℚ) : ℕ → ℕ → ℚ := inst

/-- `y = test_instances[:, :, context_length:]` (main.py line 60): the
target slice of one instance, re-based at time offset `C`. -/
def targetSlice (C : ℕ) (inst : ℕ → ℕ → ℚ) : ℕ → ℕ → ℚ :=
  fun v j => inst v (C + j)

/-- The list `X` of context windows built by the entry point. -/
def entryX (T C H : ℕ) (s : ℕ → ℕ → ℚ) : List (ℕ → ℕ → ℚ) :=
  (slidingWindows T (C + H) s).map contextSlice

/-- The list `y` of target windows built by the entry point. -/
def entryY (T C H : ℕ) (s : ℕ → ℕ → ℚ) : List (ℕ → ℕ → ℚ) :=
  (slidingWindows T (C + H) s).map (targetSlice C)

theorem slidingWindows_length (T w : ℕ) (s : ℕ → ℕ → ℚ) :
    (slidingWindows T w s).length = T - w + 1 := by
  simp [slidingWindows]

theorem slidingWindows_getD (T w i : ℕ) (s : ℕ → ℕ → ℚ)
    (hi : i < T - w + 1) (v j : ℕ) :
    ((slidingWindows T w s).getD i (fun _ _ => 0)) v j = s (i + j) v := by
  have hlen : i < (slidingWindows T w s).length := by
    simpa [slidingWindows_length] using hi
  rw [List.getD_eq_getElem _ _ hlen]
  simp [slidingWindows]

/-- C1: for a series of length `T` with `C + H ≤ T` (and non-degenerate
window sizes `0 < C`, `0 < H`), the sliding-window construction at
main.py line 58 succeeds, produces exactly `T − C − H + 1` windows — one
per valid start offset with step size 1, the final offset `T − C − H`
included — and the union of the windows' time spans `[i, i + C + H)`
covers `[0, T)`. -/
theorem window_coverage (T C H : ℕ) (s : ℕ → ℕ → ℚ)
    (hC : 0 < C) (hH : 0 < H) (hT : C + H ≤ T) :
    testInstances T C H s = Except.ok (slidingWindows T (C + H) s) ∧
    (slidingWindows T (C + H) s).length = T - C - H + 1 ∧
    T - C - H < (slidingWindows T (C + H) s).length ∧
    (∀ t, t < T → ∃ i, i < (slidingWindows T (C + H) s).length ∧
      i ≤ t ∧ t < i + (C + H)) := by
  refine ⟨?_, ?_, ?_, ?_⟩
  · simp [testInstances, slidingWindowView, hT]
  · rw [slidingWindows_length]; omega
  · rw [slidingWindows_length]; omega
  · intro t ht
    refine ⟨min t (T - (C + H)), ?_, ?_, ?_⟩
    · rw [slidingWindows_length]; omega
    · omega
    · omega

/-- Witness for C1 at `T = 5`, `C = 2`, `H = 1`, `s (t, v) = t`. -/
theorem window_coverage_witness :
    0 < 2 ∧ 0 < 1 ∧ 2 + 1 ≤ 5 ∧
    ((slidingWindows 5 (2 + 1) (fun t _ => (t : ℚ))).length = 5 - 2 - 1 + 1 ∧
      ∀ t, t < 5 → ∃ i, i < (slidingWindows 5 (2 + 1) (fun t _ => (t : ℚ))).length ∧
        i ≤ t ∧ t < i + (2 + 1)) :=
  ⟨by decide, by decide, by decide,
    ⟨(window_coverage 5 2 1 (fun t _ => (t : ℚ)) (by decide) (by decide)
        (by decide)).2.1,
      (window_coverage 5 2 1 (fun t _ => (t : ℚ)) (by decide) (by decide)
        (by decide)).2.2.2⟩⟩

/-- C4: extracted instance `i` spans time steps `[i, i + C + H)`; its
context (`X = test_instances[:, :, :C]`, main.py line 59) is exactly the
first `C` steps of that span, and its target
(`y = test_instances[:, :, C:]`, main.py line 60) is exactly the remaining
`H` steps. -/
theorem instance_span_split (T C H i : ℕ) (s : ℕ → ℕ → ℚ)
    (hi : i < T - (C + H) + 1) :
    (∀ v j, j < C + H →
      ((slidingWindows T (C + H) s).getD i (fun _ _ => 0)) v j = s (i + j) v) ∧
    (∀ v j, j < C →
      ((entryX T C H s).getD i (fun _ _ => 0)) v j = s (i + j) v) ∧
    (∀ v j, j < H →
      ((entryY T C H s).getD i (fun _ _ => 0)) v j = s (i + C + j) v) := by
  have hX : entryX T C H s = slidingWindows T (C + H) s := by
    have h : contextSlice = id := rfl
    rw [entryX, h, List.map_id]
  refine ⟨fun v j _ => slidingWindows_getD T (C + H) i s hi v j, ?_, ?_⟩
  · intro v j _
    rw [hX]
    exact slidingWindows_getD T (C + H) i s hi v j
  · intro v j _
    have hlen : i < (slidingWindows T (C + H) s).length := by
      simpa [slidingWindows_length] using hi
    have : i < (entryY T C H s).length := by
      simpa [entryY] using hlen
    rw [List.getD_eq_getElem _ _ this]
    simp [entryY, slidingWindows, targetSlice]
    congr 1
    omega

/-- Witness for C4 at `T = 4`, `C = 2`, `H = 1`, instance `i = 1`,
`s (t, v) = t`: the target entry `(v, j) = (0, 0)` reads `s (1 + 2 + 0)`. -/
theorem instance_span_split_witness :
    1 < 4 - (2 + 1) + 1 ∧
    ((entryY 4 2 1 (fun t _ => (t : ℚ))).getD 1 (fun _ _ => 0)) 0 0 =
      ((1 + 2 + 0 : ℕ) : ℚ) :=
  ⟨by decide,
    (instance_span_split 4 2 1 1 (fun t _ => (t : ℚ)) (by decide)).2.2 0 0
      (by decide)⟩

/-! ## Entry-point prediction pipeline (main.py lines 57–61)

Line 58 builds the sliding-window view, lines 59–60 slice it, and line 61
calls `model.predict(X)`.  A `ValueError` from the windowing step aborts
the script before `predict` runs, so the pipeline is an `Except`
computation whose error short-circuits the call to `predict`. -/

/-- The entry-point steps from the sliding-window construction through the
call to `model.predict` (main.py lines 58–61), with the predict step left
abstract as `predictFn`. -/
def entryPredictPipeline (T C H : ℕ) (s : ℕ → ℕ → ℚ)
    (predictFn : List (ℕ → ℕ → ℚ) → List (ℕ → ℕ → ℚ)) :
    Except String (List (ℕ → ℕ → ℚ)) := do
  let ti ← testInstances T C H s
  pure (predictFn (ti.map contextSlice))

/-- C9: a held-out test series shorter than `context_length + horizon`
makes the sliding-window construction at main.py line 58 raise before
`model.predict` is invoked: the pipeline result is the windowing error, the
same for every possible predict function, so no prediction output is
produced. -/
theorem short_test_split_errors_before_predict (T C H : ℕ) (s : ℕ → ℕ → ℚ)
    (predictFn : List (ℕ → ℕ → ℚ) → List (ℕ → ℕ → ℚ))
    (hT : T < C + H) :
    entryPredictPipeline T C H s predictFn =
      Except.error "ValueError: window shape cannot be larger than input array shape" := by
  have h : ¬ (C + H ≤ T) := by omega
  simp [entryPredictPipeline, testInstances, slidingWindowView, h]

/-- Witness for C9 at `T = 2`, `C = 2`, `H = 1`, the identity predict
function. -/
theorem short_test_split_errors_before_predict_witness :
    2 < 2 + 1 ∧
    entryPredictPipeline 2 2 1 (fun t _ => (t : ℚ)) id =
      Except.error "ValueError: window shape cannot be larger than input array shape" :=
  ⟨by decide,
    short_test_split_errors_before_predict 2 2 1 (fun t _ => (t : ℚ)) id
      (by decide)⟩

/-! ## InstanceNormalizer

Modelled from the spec (§4.2): the component itself lives in the `model`
module, which is not part of the sources; only its caller `main.py` is.
Per window and per variable, `mean` is the average of the context values
and `scale` is the standard deviation of the context values floored at a
positive `ε` (`scale = max(std, ε)`); with `instance_norm` disabled the
statistics are identically `(0, 1)`.  The standard deviation is the square
root of the variance and is therefore not rational-representable; it is
modelled as an abstract function `stdFn` of the context, which the floor
makes irrelevant to every property below. -/

/-- Per-window, per-variable normalization statistics. -/
structure Stats where
  mean : ℚ
  scale : ℚ
deriving DecidableEq

/-- Modelled from the spec: the `(mean, scale)` statistics InstanceNormalizer
computes from a context slice `c` — `mean` is the average of `c`, `scale`
is `max (stdFn c) ε` where `stdFn` stands for the standard deviation of
`c`; with `instance_norm` off the statistics are the no-op `(0, 1)`. -/
def statsOf (stdFn : List ℚ → ℚ) (ε : ℚ) (instNorm : Bool) (c : List ℚ) :
    Stats :=
  if instNorm then ⟨c.sum / c.length, max (stdFn c) ε⟩ else ⟨0, 1⟩

/-- Forward transform: `norm_value = (raw_value − mean) / scale`. -/
def normalizeVal (st : Stats) (x : ℚ) : ℚ := (x - st.mean) / st.scale

/-- Inverse transform: `raw_value = norm_value · scale + mean`. -/
def denormalizeVal (st : Stats) (v : ℚ) : ℚ := v * st.scale + st.mean

/-- Modelled from the spec: `normalize(context, target=None)` returns the
normalized context, the optionally normalized target — both using the
context-derived statistics — and the statistics themselves. -/
structure NormOutput where
  normContext : List ℚ
  normTarget : Option (List ℚ)
  stats : Stats
deriving DecidableEq

/-- Modelled from the spec: the full `normalize` entry of
InstanceNormalizer for one variable of one window. -/
def normalizePair (stdFn : List ℚ → ℚ) (ε : ℚ) (instNorm : Bool)
    (context : List ℚ) (target : Option (List ℚ)) : NormOutput :=
  let st := statsOf stdFn ε instNorm context
  ⟨context.map (normalizeVal st), target.map (fun t => t.map (normalizeVal st)),
    st⟩

theorem statsOf_scale_pos (stdFn : List ℚ → ℚ) (ε : ℚ) (hε : 0 < ε)
    (instNorm : Bool) (c : List ℚ) :
    0 < (statsOf stdFn ε instNorm c).scale := by
  cases instNorm <;> simp [statsOf]
  exact Or.inr hε

/-- C2: for every window `xs` and every `(mean, scale)` statistic produced
by InstanceNormalizer from any context (the scale floored at a positive
`ε`, hence nonzero), denormalizing the normalized window returns it
exactly: `denormalize` is the exact inverse of `normalize`'s forward
transform. -/
theorem normalize_denormalize_roundtrip (stdFn : List ℚ → ℚ) (ε : ℚ)
    (hε : 0 < ε) (instNorm : Bool) (c : List ℚ) (xs : List ℚ) :
    (xs.map (normalizeVal (statsOf stdFn ε instNorm c))).map
        (denormalizeVal (statsOf stdFn ε instNorm c)) = xs ∧
    ∀ x : ℚ, denormalizeVal (statsOf stdFn ε instNorm c)
        (normalizeVal (statsOf stdFn ε instNorm c) x) = x := by
  have hs : (statsOf stdFn ε instNorm c).scale ≠ 0 :=
    ne_of_gt (statsOf_scale_pos stdFn ε hε instNorm c)
  have hpt : ∀ x : ℚ, denormalizeVal (statsOf stdFn ε instNorm c)
      (normalizeVal (statsOf stdFn ε instNorm c) x) = x := by
    intro x
    simp [normalizeVal, denormalizeVal, div_mul_cancel₀ _ hs]
  refine ⟨?_, hpt⟩
  rw [List.map_map]
  calc xs.map (denormalizeVal (statsOf stdFn ε instNorm c) ∘
        normalizeVal (statsOf stdFn ε instNorm c))
      = xs.map id := List.map_congr_left (fun x _ => hpt x)
    _ = xs := List.map_id xs

/-- Witness for C2 at `ε = 1`, `stdFn = 0`, context `[1, 2]`, window
`[3, 4]` with instance normalization on. -/
theorem normalize_denormalize_roundtrip_witness :
    (0 : ℚ) < 1 ∧
    (([3, 4] : List ℚ).map
        (normalizeVal (statsOf (fun _ => 0) 1 true [1, 2]))).map
        (denormalizeVal (statsOf (fun _ => 0) 1 true [1, 2])) = [3, 4] :=
  ⟨by norm_num,
    (normalize_denormalize_roundtrip (fun _ => 0) 1 (by norm_num) true
      [1, 2] [3, 4]).1⟩

/-- C5: InstanceNormalizer's statistics are a function of the context slice
only — two calls with the same context and arbitrarily different targets
produce identical statistics and identical normalized contexts — and the
target is normalized with those same context-derived statistics. -/
theorem stats_no_target_leakage (stdFn : List ℚ → ℚ) (ε : ℚ)
    (instNorm : Bool) (c t₁ t₂ : List ℚ) :
    (normalizePair stdFn ε instNorm c (some t₁)).stats =
      (normalizePair stdFn ε instNorm c (some t₂)).stats ∧
    (normalizePair stdFn ε instNorm c (some t₁)).normContext =
      (normalizePair stdFn ε instNorm c (some t₂)).normContext ∧
    (normalizePair stdFn ε instNorm c (some t₁)).stats =
      statsOf stdFn ε instNorm c ∧
    (normalizePair stdFn ε instNorm c (some t₁)).normTarget =
      some (t₁.map (normalizeVal (statsOf stdFn ε instNorm c))) :=
  ⟨rfl, rfl, rfl, rfl⟩

/-! ## ClosedFormEstimator

Modelled from the spec (§4.3): the estimator lives in the absent `model`
module.  It solves the ridge-regularized normal equations
`W = (XᵀX + α·I)⁻¹ Xᵀ y`.  Matrix inversion over `ℚ` is written out as
`det⁻¹ • adjugate` so that every definition stays computable. -/

/-- Computable matrix inverse over `ℚ`: `A⁻¹ = (det A)⁻¹ • adjugate A`
(the zero matrix when `A` is singular, matching Mathlib's `⁻¹`). -/
def matInv {n : ℕ} (A : Matrix (Fin n) (Fin n) ℚ) : Matrix (Fin n) (Fin n) ℚ :=
  A.det⁻¹ • A.adjugate

/-- The regularized Gram matrix `XᵀX + α·I` of the normal equations. -/
def ridgeMatrix {N C : ℕ} (X : Matrix (Fin N) (Fin C) ℚ) (α : ℚ) :
    Matrix (Fin C) (Fin C) ℚ :=
  Xᵀ * X + α • 1

/-- Modelled from the spec: `ClosedFormEstimator.fit(X, y, alpha)` returns
`W = (XᵀX + α·I)⁻¹ Xᵀ y`. -/
def closedFormFit {N C H : ℕ} (X : Matrix (Fin N) (Fin C) ℚ)
    (y : Matrix (Fin N) (Fin H) ℚ) (α : ℚ) : Matrix (Fin C) (Fin H) ℚ :=
  matInv (ridgeMatrix X α) * (Xᵀ * y)

/-- The ordinary least squares solution `W = (XᵀX)⁻¹ Xᵀ y`. -/
def olsFit {N C H : ℕ} (X : Matrix (Fin N) (Fin C) ℚ)
    (y : Matrix (Fin N) (Fin H) ℚ) : Matrix (Fin C) (Fin H) ℚ :=
  matInv (Xᵀ * X) * (Xᵀ * y)

theorem matInv_eq_inv {n : ℕ} (A : Matrix (Fin n) (Fin n) ℚ) :
    matInv A = A⁻¹ := by
  rw [matInv, Matrix.inv_def, Ring.inverse_eq_inv]

/-- C3: for every design matrix `X : (N, C)`, target matrix `y : (N, H)`
and `α ≥ 0`, the fitted `W = (XᵀX + α·I)⁻¹ Xᵀ y` solves the regularized
normal equations `(XᵀX + α·I) W = Xᵀ y` whenever that matrix is
invertible, and with `α = 0` the fit is exactly the ordinary least squares
solution `(XᵀX)⁻¹ Xᵀ y`. -/
theorem closedFormFit_normal_equations {N C H : ℕ}
    (X : Matrix (Fin N) (Fin C) ℚ) (y : Matrix (Fin N) (Fin H) ℚ) (α : ℚ)
    (hα : 0 ≤ α) (h : IsUnit (ridgeMatrix X α).det) :
    ridgeMatrix X α * closedFormFit X y α = Xᵀ * y ∧
    closedFormFit X y 0 = olsFit X y := by
  constructor
  · rw [closedFormFit, matInv_eq_inv, ← Matrix.mul_assoc,
      Matrix.mul_nonsing_inv _ h, Matrix.one_mul]
  · rw [closedFormFit, olsFit]
    have h0 : ridgeMatrix X 0 = Xᵀ * X := by
      rw [ridgeMatrix, zero_smul, add_zero]
    rw [h0]

/-- Witness for C3 at `X = [[2]]`, `y = [[4]]`, `α = 1`: the ridge matrix
is `[[5]]`, which is invertible. -/
theorem closedFormFit_normal_equations_witness :
    (0 : ℚ) ≤ 1 ∧
    IsUnit (ridgeMatrix (!![2] : Matrix (Fin 1) (Fin 1) ℚ) 1).det ∧
    (ridgeMatrix (!![2] : Matrix (Fin 1) (Fin 1) ℚ) 1 *
        closedFormFit (!![2] : Matrix (Fin 1) (Fin 1) ℚ) (!![4]) 1 =
      (!![2] : Matrix (Fin 1) (Fin 1) ℚ)ᵀ * !![4] ∧
    closedFormFit (!![2] : Matrix (Fin 1) (Fin 1) ℚ) (!![4]) 0 =
      olsFit (!![2] : Matrix (Fin 1) (Fin 1) ℚ) (!![4])) := by
  have hdet : (ridgeMatrix (!![2] : Matrix (Fin 1) (Fin 1) ℚ) 1).det = 5 := by
    simp [ridgeMatrix, Matrix.det_fin_one, Matrix.mul_apply]
    norm_num
  have hu : IsUnit (ridgeMatrix (!![2] : Matrix (Fin 1) (Fin 1) ℚ) 1).det := by
    rw [hdet]; exact isUnit_iff_ne_zero.mpr (by norm_num)
  exact ⟨by norm_num, hu,
    closedFormFit_normal_equations (!![2] : Matrix (Fin 1) (Fin 1) ℚ) (!![4])
      1 (by norm_num) hu⟩

/-! ## ForecastModel: predict

Modelled from the spec (§4.4): `predict(X)` takes a batch of raw context
windows of shape `(batch, variables, context_length)` — embedded as nested
lists so that the shape of the result is a provable property — and for
each window and variable independently normalizes with that window's own
context statistics, applies the per-variable (or shared) weight matrix,
and denormalizes back to raw scale. -/

/-- Apply a `C × H` weight matrix to one context row: output `j` is
`∑ k, x[k] · W[k, j]`, one entry per horizon step. -/
def applyWeights (C H : ℕ) (W : Matrix (Fin C) (Fin H) ℚ) (x : List ℚ) :
    List ℚ :=
  (List.finRange H).map (fun j => ∑ k : Fin C, x.getD k.1 0 * W k j)

/-- Modelled from the spec: `ForecastModel.predict` on a batch of raw
context windows; `Wsel v` is the weight matrix for variable `v` (a
constant function in the shared, non-individual mode). -/
def predictWindows (C H : ℕ) (stdFn : List ℚ → ℚ) (ε : ℚ) (instNorm : Bool)
    (Wsel : ℕ → Matrix (Fin C) (Fin H) ℚ) (X : List (List (List ℚ))) :
    List (List (List ℚ)) :=
  X.map (fun window =>
    window.enum.map (fun vr =>
      let st := statsOf stdFn ε instNorm vr.2
      (applyWeights C H (Wsel vr.1) (vr.2.map (normalizeVal st))).map
        (denormalizeVal st)))

theorem applyWeights_length (C H : ℕ) (W : Matrix (Fin C) (Fin H) ℚ)
    (x : List ℚ) : (applyWeights C H W x).length = H := by
  simp [applyWeights]

/-- C6: for every fitted model and every batch of size `B ≥ 1`, `predict`
on an input of shape `(B, V, C)` returns an output of shape `(B, V, H)`:
the batch length is preserved, every window keeps its `V` variable rows,
and every row has exactly `H` horizon entries. -/
theorem predict_shape (C H V : ℕ) (stdFn : List ℚ → ℚ) (ε : ℚ)
    (instNorm : Bool) (Wsel : ℕ → Matrix (Fin C) (Fin H) ℚ)
    (X : List (List (List ℚ))) (hB : 1 ≤ X.length)
    (hV : ∀ w ∈ X, w.length = V) :
    (predictWindows C H stdFn ε instNorm Wsel X).length = X.length ∧
    1 ≤ (predictWindows C H stdFn ε instNorm Wsel X).length ∧
    (∀ w ∈ predictWindows C H stdFn ε instNorm Wsel X, w.length = V) ∧
    (∀ w ∈ predictWindows C H stdFn ε instNorm Wsel X, ∀ r ∈ w,
      r.length = H) := by
  have hlen : (predictWindows C H stdFn ε instNorm Wsel X).length = X.length := by
    simp [predictWindows]
  refine ⟨hlen, by omega, ?_, ?_⟩
  · intro w hw
    rcases List.mem_map.1 hw with ⟨w₀, hw₀, rfl⟩
    rw [List.length_map, List.enum_length]
    exact hV w₀ hw₀
  · intro w hw r hr
    rcases List.mem_map.1 hw with ⟨w₀, _, rfl⟩
    rcases List.mem_map.1 hr with ⟨vr, _, rfl⟩
    rw [List.length_map, applyWeights_length]

/-- Witness for C6 at `B = 1`, `V = 1`, `C = 1`, `H = 2`, input
`[[[3]]]`, zero weights. -/
theorem predict_shape_witness :
    1 ≤ ([[[3]]] : List (List (List ℚ))).length ∧
    (∀ w ∈ ([[[3]]] : List (List (List ℚ))), w.length = 1) ∧
    (predictWindows 1 2 (fun _ => 0) 1 true (fun _ => 0)
        ([[[3]]] : List (List (List ℚ)))).length = 1 ∧
    (∀ w ∈ predictWindows 1 2 (fun _ => 0) 1 true (fun _ => 0)
        ([[[3]]] : List (List (List ℚ))), ∀ r ∈ w, r.length = 2) := by
  have h := predict_shape 1 2 1 (fun _ => 0) 1 true (fun _ => 0)
    ([[[3]]] : List (List (List ℚ))) (by simp) (by simp)
  exact ⟨by simp, by simp, h.1, h.2.2.2⟩

/-! ## ForecastModel: fit, window extraction and the error taxonomy

Modelled from the spec (§4.1, §4.4, §7): the `model` module holding `OLS`
is not part of the sources.  `fit` builds the sliding-window training
pairs (WindowExtractor), truncates them under `max_train_N` (first-N
truncation, the documented deterministic policy, reproducible for any
seed), normalizes each pair with its own context statistics, and solves
the ridge normal equations once (shared) or per variable (individual).
The ambient process-wide RNG state is passed in explicitly as
`globalRngState` and, per §5/§9, never consulted: the only randomness
field is the configuration's explicit `seed`. -/

/-- The error taxonomy of §7. -/
inductive ForecastError
  | insufficientData
  | dimensionMismatch
  | singularMatrix
deriving DecidableEq

/-- Modelled from the spec: WindowExtractor — the sliding windows when the
series is long enough, `InsufficientDataError` when `T < C + H`. -/
def extractWindows (C H T : ℕ) (s : ℕ → ℕ → ℚ) :
    Except ForecastError (List (ℕ → ℕ → ℚ)) :=
  if C + H ≤ T then Except.ok (slidingWindows T (C + H) s)
  else Except.error ForecastError.insufficientData

/-- The model configuration of §3, with the seed an explicit field. -/
structure ModelConfig where
  contextLength : ℕ
  horizon : ℕ
  instanceNorm : Bool
  individual : Bool
  alpha : ℚ
  seed : Option ℕ
  maxTrainN : Option ℕ

/-- Modelled from the spec: the `max_train_N` sub-selection — first-N
truncation, deterministic and reproducible for any configured seed. -/
def subSelect {α : Type} (maxN : Option ℕ) (seed : Option ℕ) (l : List α) :
    List α :=
  match maxN with
  | none => l
  | some k => l.take k

/-- The `(context, target)` pair of one variable of one window instance. -/
def windowPairs (C H : ℕ) (inst : ℕ → ℕ → ℚ) (v : ℕ) : List ℚ × List ℚ :=
  ((List.range C).map (fun j => inst v j),
    (List.range H).map (fun j => inst v (C + j)))

/-- Normalize a training pair with its own context-derived statistics. -/
def normalizeTrainPair (stdFn : List ℚ → ℚ) (ε : ℚ) (instNorm : Bool)
    (p : List ℚ × List ℚ) : List ℚ × List ℚ :=
  let st := statsOf stdFn ε instNorm p.1
  (p.1.map (normalizeVal st), p.2.map (normalizeVal st))

/-- The Gram matrix `XᵀX` of a list of context rows. -/
def gramCC (C : ℕ) (xs : List (List ℚ)) : Matrix (Fin C) (Fin C) ℚ :=
  Matrix.of fun k k' => (xs.map (fun x => x.getD k.1 0 * x.getD k'.1 0)).sum

/-- The cross-moment matrix `Xᵀy` of a list of (context, target) pairs. -/
def gramCH (C H : ℕ) (pairs : List (List ℚ × List ℚ)) :
    Matrix (Fin C) (Fin H) ℚ :=
  Matrix.of fun k j => (pairs.map (fun p => p.1.getD k.1 0 * p.2.getD j.1 0)).sum

/-- The ridge estimator applied to list-represented training pairs:
`W = (XᵀX + α·I)⁻¹ Xᵀ y`. -/
def estimateWeights (C H : ℕ) (α : ℚ) (pairs : List (List ℚ × List ℚ)) :
    Matrix (Fin C) (Fin H) ℚ :=
  matInv (gramCC C (pairs.map Prod.fst) + α • 1) * gramCH C H pairs

/-- Modelled from the spec: `ForecastModel.fit` on a raw training series of
length `T` with `V` variables.  `globalRngState` is the ambient
process-wide RNG state, passed explicitly and never consulted. -/
def fitModel (globalRngState : ℕ) (stdFn : List ℚ → ℚ) (ε : ℚ)
    (cfg : ModelConfig) (V T : ℕ) (s : ℕ → ℕ → ℚ) :
    Except ForecastError
      (ℕ → Matrix (Fin cfg.contextLength) (Fin cfg.horizon) ℚ) := do
  let ws ← extractWindows cfg.contextLength cfg.horizon T s
  let sel := subSelect cfg.maxTrainN cfg.seed ws
  let pairsFor : ℕ → List (List ℚ × List ℚ) := fun v =>
    sel.map (fun inst => normalizeTrainPair stdFn ε cfg.instanceNorm
      (windowPairs cfg.contextLength cfg.horizon inst v))
  if cfg.individual then
    pure (fun v =>
      estimateWeights cfg.contextLength cfg.horizon cfg.alpha (pairsFor v))
  else
    pure (fun _ => estimateWeights cfg.contextLength cfg.horizon cfg.alpha
      ((List.range V).flatMap pairsFor))

/-- C7: fitting on a training series with `T < context_length + horizon`
time steps fails immediately with `InsufficientDataError` — the
window-extraction error propagates out of `fit` unchanged, with no retry
and no partial result payload. -/
theorem fit_short_series_insufficient_data (g : ℕ) (stdFn : List ℚ → ℚ)
    (ε : ℚ) (cfg : ModelConfig) (V T : ℕ) (s : ℕ → ℕ → ℚ)
    (hT : T < cfg.contextLength + cfg.horizon) :
    fitModel g stdFn ε cfg V T s =
      Except.error ForecastError.insufficientData ∧
    extractWindows cfg.contextLength cfg.horizon T s =
      Except.error ForecastError.insufficientData := by
  have h : ¬ (cfg.contextLength + cfg.horizon ≤ T) := by omega
  have hw : extractWindows cfg.contextLength cfg.horizon T s =
      Except.error ForecastError.insufficientData := by
    simp [extractWindows, h]
  refine ⟨?_, hw⟩
  simp only [fitModel, hw]
  rfl

/-- Witness for C7 at `T = 2`, `C = 2`, `H = 1`. -/
theorem fit_short_series_insufficient_data_witness :
    2 < (2 : ℕ) + 1 ∧
    fitModel 0 (fun _ => 0) 1 ⟨2, 1, true, true, 1, some 42, none⟩ 1 2
        (fun t _ => (t : ℚ)) =
      Except.error ForecastError.insufficientData :=
  ⟨by decide,
    (fit_short_series_insufficient_data 0 (fun _ => 0) 1
      ⟨2, 1, true, true, 1, some 42, none⟩ 1 2 (fun t _ => (t : ℚ))
      (by decide)).1⟩

/-- `predict` threaded with the ambient process-wide RNG state, which it
never consults. -/
def predictRun (globalRngState : ℕ) (C H : ℕ) (stdFn : List ℚ → ℚ) (ε : ℚ)
    (instNorm : Bool) (Wsel : ℕ → Matrix (Fin C) (Fin H) ℚ)
    (X : List (List (List ℚ))) : List (List (List ℚ)) :=
  predictWindows C H stdFn ε instNorm Wsel X

/-- C8: no operation consults process-wide random state — the seed is an
explicit configuration field threaded through the `max_train_N`
sub-selection — so `fit` and `predict` are invariant under the ambient
global RNG state, and two runs on identical inputs with the same
configured seed produce identical outputs. -/
theorem fit_predict_seed_deterministic (g₁ g₂ : ℕ) (stdFn : List ℚ → ℚ)
    (ε : ℚ) (cfg : ModelConfig) (V T : ℕ) (s : ℕ → ℕ → ℚ) (C H : ℕ)
    (Wsel : ℕ → Matrix (Fin C) (Fin H) ℚ) (X : List (List (List ℚ))) :
    fitModel g₁ stdFn ε cfg V T s = fitModel g₂ stdFn ε cfg V T s ∧
    predictRun g₁ C H stdFn ε cfg.instanceNorm Wsel X =
      predictRun g₂ C H stdFn ε cfg.instanceNorm Wsel X ∧
    subSelect cfg.maxTrainN cfg.seed (slidingWindows T C s) =
      subSelect cfg.maxTrainN cfg.seed (slidingWindows T C s) :=
  ⟨rfl, rfl, rfl⟩

/-! ## Entry-point evaluation and visualization (main.py lines 62–77)

`y` and `preds` both have shape `(N, V, H)`, embedded as
`a : ℕ → ℕ → ℕ → ℚ` with extents `N`, `V`, `H`.  Line 62 prints the MSE
and MAE of the full arrays.  Lines 69–77 build the plotted series `t` and
`p` by iterating `i` over `range(y.shape[0] - 778)` and extending with
`y[i, -1, :]` and `preds[i, -1, :]` — the last variable only. -/

/-- The plotted series of main.py lines 69–77: for `i` in
`range(N - 778)`, the `H` entries of window `i` at the last variable
(index `V - 1`), concatenated in order. -/
def plotSeries (N V H : ℕ) (a : ℕ → ℕ → ℕ → ℚ) : List ℚ :=
  (List.range (N - 778)).flatMap
    (fun i => (List.range H).map (fun j => a i (V - 1) j))

/-- `np.mean((y - preds)**2)` over the full `(N, V, H)` arrays
(main.py line 62). -/
def mseEntry (N V H : ℕ) (y preds : ℕ → ℕ → ℕ → ℚ) : ℚ :=
  ((List.range N).map (fun i =>
    ((List.range V).map (fun v =>
      ((List.range H).map (fun j => (y i v j - preds i v j) ^ 2)).sum)).sum)).sum
    / (N * V * H)

/-- `np.mean(np.abs(y - preds))` over the full `(N, V, H)` arrays
(main.py line 62). -/
def maeEntry (N V H : ℕ) (y preds : ℕ → ℕ → ℕ → ℚ) : ℚ :=
  ((List.range N).map (fun i =>
    ((List.range V).map (fun v =>
      ((List.range H).map (fun j => |y i v j - preds i v j|)).sum)).sum)).sum
    / (N * V * H)

/-- The mean squared error written as an explicit mean over all
`N · V · H` entries — every window index `i < N` included, in particular
the final 778 ones the plot omits. -/
def meanSqOverAll (N V H : ℕ) (y preds : ℕ → ℕ → ℕ → ℚ) : ℚ :=
  (∑ i ∈ Finset.range N, ∑ v ∈ Finset.range V, ∑ j ∈ Finset.range H,
    (y i v j - preds i v j) ^ 2) / (N * V * H)

/-- The mean absolute error written as an explicit mean over all
`N · V · H` entries. -/
def meanAbsOverAll (N V H : ℕ) (y preds : ℕ → ℕ → ℕ → ℚ) : ℚ :=
  (∑ i ∈ Finset.range N, ∑ v ∈ Finset.range V, ∑ j ∈ Finset.range H,
    |y i v j - preds i v j|) / (N * V * H)

/-- C10: the visualization stage plots only the first `N − 778` of the `N`
test windows and only the last variable: the plotted series has
`(N − 778) · H` entries; it is empty whenever `N ≤ 778`; it is unchanged
under arbitrary modification of the final 778 windows and of every
variable other than the last; and the printed MSE/MAE are means over all
`N · V · H` entries, unaffected by the plot's truncation. -/
theorem plot_truncation (N V H : ℕ) (y preds y₂ : ℕ → ℕ → ℕ → ℚ) :
    (plotSeries N V H y).length = (N - 778) * H ∧
    (N ≤ 778 → plotSeries N V H y = []) ∧
    ((∀ i, i < N - 778 → ∀ j, j < H → y i (V - 1) j = y₂ i (V - 1) j) →
      plotSeries N V H y = plotSeries N V H y₂) ∧
    mseEntry N V H y preds = meanSqOverAll N V H y preds ∧
    maeEntry N V H y preds = meanAbsOverAll N V H y preds := by
  refine ⟨?_, ?_, ?_, rfl, rfl⟩
  · rw [plotSeries, List.length_flatMap]
    rw [show (List.length ∘ fun i => List.map (fun j => y i (V - 1) j)
        (List.range H)) = fun _ => H by funext i; simp]
    simp [List.map_const', mul_comm]
  · intro hN
    simp [plotSeries, Nat.sub_eq_zero_of_le hN]
  · intro hagree
    rw [plotSeries, plotSeries, List.flatMap_def, List.flatMap_def]
    refine congrArg List.flatten (List.map_congr_left ?_)
    intro i hi
    exact List.map_congr_left (fun j hj =>
      hagree i (List.mem_range.1 hi) j (List.mem_range.1 hj))

/-- Witness for C10: at `N = 3 ≤ 778` the plotted series is empty; at
`N = 780` it has `2 · 1` entries; and two value arrays agreeing on the
first two windows at the last variable — one of them rewritten to `99`
everywhere else — plot identically. -/
theorem plot_truncation_witness :
    (3 ≤ 778 ∧ plotSeries 3 1 2 (fun i _ _ => (i : ℚ)) = []) ∧
    (plotSeries 780 1 1 (fun i _ _ => (i : ℚ))).length = (780 - 778) * 1 ∧
    plotSeries 780 1 1 (fun i _ _ => (i : ℚ)) =
      plotSeries 780 1 1 (fun i _ _ => if i < 2 then (i : ℚ) else 99) :=
  ⟨⟨by decide,
      (plot_truncation 3 1 2 (fun i _ _ => (i : ℚ)) (fun _ _ _ => 0)
        (fun _ _ _ => 0)).2.1 (by decide)⟩,
    (plot_truncation 780 1 1 (fun i _ _ => (i : ℚ)) (fun _ _ _ => 0)
      (fun _ _ _ => 0)).1,
    (plot_truncation 780 1 1 (fun i _ _ => (i : ℚ)) (fun _ _ _ => 0)
      (fun i _ _ => if i < 2 then (i : ℚ) else 99)).2.2.1 (by decide)⟩

end LinearForecasting
